import Mathlib

/-!
Shallow embedding of the `schedule` Go package (iflamed/schedule): a fluent
cron-style scheduler.  The definitions below translate, function by function,
the current revision of the package (the revision whose `WeeklyOn` takes a
`time.Weekday`, whose scheduler carries a swappable logger, and whose `Call`
rolls the clock back to the configured location) together with its data model
(`NextTick`, `Limit`, `Task`).

Modelling conventions:
- Go `string` values are embedded as `List Char`; `strings.Split(s, ":")` is
  `gsplit ':' s` and `strconv.Atoi` is `atoi` (returning `none` on the error
  path).
- `time.Time` is embedded as `GoTime`: an absolute instant counted in minutes
  since the Unix epoch plus a location, where a `*time.Location` is abstracted
  to its UTC offset in minutes (the scheduler only ever reads calendar fields
  of `now`, all of which are functions of `abs + off`).  The calendar fields
  `Year`/`Month`/`Day` are computed with the standard civil-from-days
  conversion, `Weekday` from the epoch day number (1970-01-01 was a Thursday),
  with Sunday = 0 as in Go's `time.Weekday`.
- `sync.WaitGroup` is embedded as its counter (`wg : Nat`), the `int32`
  in-flight counter as `count : Int` (overflow of int32 is not modelled), and
  the logger as the list `logs` of payloads reported through `Logger.Error`.
- The `WhenFunc` constraint predicate is embedded by the boolean it returns on
  the scheduler's context (`When : Option Bool`, `none` for the nil pointer).
- A spawned goroutine is embedded by `completeTask`, which runs the body of
  `go func() { defer func() { wg.Done(); count--; recover→log }(); t.Run(ctx) }`
  for a task body with a given outcome (normal return or panic).
-/

/-- `strings.Split(s, string(sep))`: split around every occurrence of `sep`;
`gsplit c [] = [[]]`, matching Go's `strings.Split("", sep) = [""]`. -/
def gsplit (sep : Char) : List Char → List (List Char)
  | [] => [[]]
  | c :: rest =>
    let r := gsplit sep rest
    if c = sep then [] :: r
    else
      match r with
      | [] => [[c]]
      | h :: t => (c :: h) :: t

/-- Value of a non-empty all-digit string; `none` otherwise (the error path
of `strconv.Atoi` after the optional sign). -/
def digitsVal : List Char → Option Nat
  | [] => none
  | ds =>
    if ds.all Char.isDigit then
      some (ds.foldl (fun a c => a * 10 + (c.toNat - 48)) 0)
    else none

/-- `strconv.Atoi`: optional sign followed by at least one digit; `none` on
the error path. -/
def atoi : List Char → Option Int
  | [] => none
  | '+' :: ds => (digitsVal ds).map (fun n => (n : Int))
  | '-' :: ds => (digitsVal ds).map (fun n => -(n : Int))
  | ds => (digitsVal ds).map (fun n => (n : Int))

/-- Embedding of `time.Time`: absolute minutes since the Unix epoch plus the
location's UTC offset in minutes. -/
structure GoTime where
  abs : Int
  off : Int
  deriving Repr, DecidableEq

/-- `time.Time.In(loc)`: same instant, displayed in another location. -/
def GoTime.In (t : GoTime) (loc : Int) : GoTime :=
  { abs := t.abs, off := loc }

/-- Local minute count (absolute instant shifted by the location offset). -/
def GoTime.localMinutes (t : GoTime) : Int := t.abs + t.off

/-- Local day number since the epoch. -/
def GoTime.daysFromEpoch (t : GoTime) : Int := t.localMinutes / 1440

/-- `time.Time.Minute()`. -/
def GoTime.Minute (t : GoTime) : Int := t.localMinutes % 60

/-- `time.Time.Hour()`. -/
def GoTime.Hour (t : GoTime) : Int := (t.localMinutes % 1440) / 60

/-- `time.Time.Weekday()` with Sunday = 0; 1970-01-01 was a Thursday (4). -/
def GoTime.Weekday (t : GoTime) : Int := (t.daysFromEpoch + 4) % 7

/-- Civil date (year, month, day) of a day number since 1970-01-01
(proleptic Gregorian calendar; the standard era-based conversion). -/
def civilFromDays (z : Int) : Int × Int × Int :=
  let era : Int := (z + 719468) / 146097
  let doe : Nat := (((z + 719468) % 146097)).toNat
  let yoe : Nat := (doe - doe / 1460 + doe / 36524 - doe / 146096) / 365
  let doy : Nat := doe - (365 * yoe + yoe / 4 - yoe / 100)
  let mp  : Nat := (5 * doy + 2) / 153
  let d   : Nat := doy - (153 * mp + 2) / 5 + 1
  let m   : Int := if mp < 10 then (mp : Int) + 3 else (mp : Int) - 9
  let y   : Int := (yoe : Int) + era * 400
  (if m ≤ 2 then y + 1 else y, m, (d : Int))

/-- `time.Time.Year()`. -/
def GoTime.Year (t : GoTime) : Int := (civilFromDays t.daysFromEpoch).1

/-- `int(time.Time.Month())` (1–12). -/
def GoTime.Month (t : GoTime) : Int := (civilFromDays t.daysFromEpoch).2.1

/-- `time.Time.Day()` (1–31). -/
def GoTime.Day (t : GoTime) : Int := (civilFromDays t.daysFromEpoch).2.2

/-- Gregorian leap-year test. -/
def isLeapYear (y : Int) : Bool :=
  (y % 4 = 0 ∧ y % 100 ≠ 0) ∨ y % 400 = 0

/-- Number of days in a month; `carbon.EndOfMonth().Day()` of an instant in
that month. -/
def daysInMonth (y m : Int) : Int :=
  if m = 2 then (if isLeapYear y then 29 else 28)
  else if m = 4 ∨ m = 6 ∨ m = 9 ∨ m = 11 then 30
  else 31

/-- The `NextTick` struct: the resolved target instant plus the omit flag. -/
structure NextTick where
  Year : Int
  Month : Int
  Day : Int
  Hour : Int
  Minute : Int
  Omit : Bool
  deriving Repr, DecidableEq

/-- The `Limit` struct: accumulated constraints.  `When` is the boolean the
`WhenFunc` returns on the scheduler's context, `none` for the nil pointer. -/
structure Limit where
  DaysOfWeek : List Int
  StartTime : List Char
  EndTime : List Char
  IsBetween : Bool
  When : Option Bool
  deriving Repr, DecidableEq

/-- Outcome of running a task body: normal return, or a panic carrying a
payload. -/
inductive RunOutcome where
  | ok : RunOutcome
  | panicked : List Char → RunOutcome
  deriving Repr, DecidableEq

/-- The `Scheduler` struct.  `wg` is the wait-group counter, `count` the
atomic in-flight counter, and `logs` the payloads reported through the
logger's `Error` method. -/
structure Scheduler where
  location : Int
  now : GoTime
  Next : NextTick
  limit : Limit
  count : Int
  wg : Nat
  logs : List (List Char)
  deriving Repr, DecidableEq

/-- `NewScheduler(ctx, loc)`: fresh scheduler whose `now` is the current
instant (a parameter here, `time.Now()` in Go) displayed in `loc`, with
zero-valued `NextTick` and `Limit`. -/
def NewScheduler (nowAbs : Int) (loc : Int) : Scheduler :=
  { location := loc
    now := { abs := nowAbs, off := loc }
    Next := { Year := 0, Month := 0, Day := 0, Hour := 0, Minute := 0, Omit := false }
    limit := { DaysOfWeek := [], StartTime := [], EndTime := [], IsBetween := false, When := none }
    count := 0
    wg := 0
    logs := [] }

/-- `Timezone(loc)`: re-display `now` in `loc` (this revision does not touch
the `location` field). -/
def Scheduler.Timezone (s : Scheduler) (loc : Int) : Scheduler :=
  { s with now := s.now.In loc }

/-- `isTimeMatched()`: false under the omit flag, otherwise exact equality of
all five calendar fields. -/
def Scheduler.isTimeMatched (s : Scheduler) : Bool :=
  if s.Next.Omit then false
  else if s.Next.Year = s.now.Year ∧ s.Next.Month = s.now.Month ∧
          s.Next.Day = s.now.Day ∧ s.Next.Hour = s.now.Hour ∧
          s.Next.Minute = s.now.Minute then true
  else false

/-- `timeToMinutes(t)`: split on `':'`; when there are exactly two parts, parse
both with `Atoi`; any error (including a part count other than two leaving the
zero values in place) yields `(0, 0)`. -/
def timeToMinutes (t : List Char) : Int × Int :=
  match gsplit ':' t with
  | [hs, ms] =>
    match atoi hs with
    | none => (0, 0)
    | some hour =>
      match atoi ms with
      | none => (0, 0)
      | some minute => (hour, minute)
  | _ => (0, 0)

/-- `checkLimit()`: weekday filter, then the time-of-day window (with the
start/end swap), then the optional `When` predicate. -/
def Scheduler.checkLimit (s : Scheduler) : Bool :=
  if 0 < s.limit.DaysOfWeek.length ∧
     ¬ s.limit.DaysOfWeek.any (fun day => day = s.now.Weekday) then false
  else
    let startMinute : Int :=
      if s.limit.StartTime ≠ [] then
        (timeToMinutes s.limit.StartTime).1 * 60 + (timeToMinutes s.limit.StartTime).2
      else 0
    let endMinute : Int :=
      if s.limit.EndTime ≠ [] then
        (timeToMinutes s.limit.EndTime).1 * 60 + (timeToMinutes s.limit.EndTime).2
      else 0
    let p : Int × Int :=
      if startMinute > endMinute then (endMinute, startMinute)
      else (startMinute, endMinute)
    let minuteOffset : Int := s.now.Hour * 60 + s.now.Minute
    if s.limit.IsBetween ∧ (minuteOffset < p.1 ∨ minuteOffset > p.2) then false
    else if ¬ s.limit.IsBetween ∧ minuteOffset > p.1 ∧ minuteOffset < p.2 then false
    else
      match s.limit.When with
      | some b => b
      | none => true

/-- `Call(t)`: evaluate match then constraints; on success increment the
in-flight counter and the wait-group and spawn the task's goroutine.  The
deferred `s.Timezone(s.location)` runs on every return path.  The boolean
records whether a goroutine was launched. -/
def Scheduler.Call (s : Scheduler) : Scheduler × Bool :=
  if ¬ s.isTimeMatched then (s.Timezone s.location, false)
  else if ¬ s.checkLimit then (s.Timezone s.location, false)
  else (({ s with count := s.count + 1, wg := s.wg + 1 }).Timezone s.location, true)

/-- Body of the goroutine spawned by `Call` for a task body with outcome
`out`: the deferred block runs `wg.Done()`, decrements the counter, then calls
`recover()`, which returns the in-flight panic value (if any) and stops the
unwinding, so the second component — the panic escaping the goroutine — is
`none` on both paths; a recovered panic is reported through the logger. -/
def Scheduler.completeTask (s : Scheduler) (out : RunOutcome) :
    Scheduler × Option (List Char) :=
  let s1 := { s with wg := s.wg - 1, count := s.count - 1 }
  match out with
  | RunOutcome.ok => (s1, none)
  | RunOutcome.panicked r => ({ s1 with logs := s1.logs ++ [r] }, none)

/-- `Start()` waits on the wait-group: `wg.Wait()` returns exactly when the
wait-group counter is zero. -/
def Scheduler.startUnblocked (s : Scheduler) : Bool := s.wg = 0

/-- `initNextTick()`: the baseline target — now truncated to the hour. -/
def Scheduler.initNextTick (s : Scheduler) : Scheduler :=
  { s with Next := { Year := s.now.Year, Month := s.now.Month, Day := s.now.Day,
                     Hour := s.now.Hour, Minute := 0, Omit := false } }

/-- `EveryMinute()`. -/
def Scheduler.EveryMinute (s : Scheduler) : Scheduler :=
  let s1 := s.initNextTick
  { s1 with Next := { s1.Next with Minute := s1.now.Minute } }

/-- `EveryTwoMinutes()`. -/
def Scheduler.EveryTwoMinutes (s : Scheduler) : Scheduler :=
  let s1 := s.initNextTick
  let minute := s1.now.Minute
  if minute % 2 = 0 then { s1 with Next := { s1.Next with Minute := minute } }
  else s1

/-- `EveryThreeMinutes()`. -/
def Scheduler.EveryThreeMinutes (s : Scheduler) : Scheduler :=
  let s1 := s.initNextTick
  let minute := s1.now.Minute
  if minute % 3 = 0 then { s1 with Next := { s1.Next with Minute := minute } }
  else s1

/-- `EveryFourMinutes()`. -/
def Scheduler.EveryFourMinutes (s : Scheduler) : Scheduler :=
  let s1 := s.initNextTick
  let minute := s1.now.Minute
  if minute % 4 = 0 then { s1 with Next := { s1.Next with Minute := minute } }
  else s1

/-- `EveryFiveMinutes()`. -/
def Scheduler.EveryFiveMinutes (s : Scheduler) : Scheduler :=
  let s1 := s.initNextTick
  let minute := s1.now.Minute
  if minute % 5 = 0 then { s1 with Next := { s1.Next with Minute := minute } }
  else s1

/-- `EveryTenMinutes()`. -/
def Scheduler.EveryTenMinutes (s : Scheduler) : Scheduler :=
  let s1 := s.initNextTick
  let minute := s1.now.Minute
  if minute % 10 = 0 then { s1 with Next := { s1.Next with Minute := minute } }
  else s1

/-- `EveryFifteenMinutes()`. -/
def Scheduler.EveryFifteenMinutes (s : Scheduler) : Scheduler :=
  let s1 := s.initNextTick
  let minute := s1.now.Minute
  if minute % 15 = 0 then { s1 with Next := { s1.Next with Minute := minute } }
  else s1

/-- `EveryThirtyMinutes()`. -/
def Scheduler.EveryThirtyMinutes (s : Scheduler) : Scheduler :=
  let s1 := s.initNextTick
  let minute := s1.now.Minute
  if minute % 30 = 0 then { s1 with Next := { s1.Next with Minute := minute } }
  else s1

/-- `EveryOddHour()`. -/
def Scheduler.EveryOddHour (s : Scheduler) : Scheduler :=
  let s1 := s.initNextTick
  let s2 := { s1 with Next := { s1.Next with Omit := true } }
  let hour := s2.now.Hour
  if 1 ≤ hour ∧ hour ≤ 23 ∧ hour % 2 ≠ 0 then
    { s2 with Next := { s2.Next with Hour := hour, Omit := false } }
  else s2

/-- `setNextTime`'s loop over the candidate `"HH:MM"` strings: the first
well-formed string equal to the current hour/minute sets the target time and
clears omit (then `break`); other strings are skipped. -/
def setNextTimeGo (currentHour currentMinute : Int) (next : NextTick) :
    List (List Char) → NextTick
  | [] => next
  | v :: rest =>
    match gsplit ':' v with
    | [hs, ms] =>
      match atoi hs with
      | some hour =>
        match atoi ms with
        | some minute =>
          if currentHour = hour ∧ currentMinute = minute then
            { next with Hour := currentHour, Minute := currentMinute, Omit := false }
          else setNextTimeGo currentHour currentMinute next rest
        | none => setNextTimeGo currentHour currentMinute next rest
      | none => setNextTimeGo currentHour currentMinute next rest
    | _ => setNextTimeGo currentHour currentMinute next rest

/-- `setNextTime(t)`. -/
def Scheduler.setNextTime (s : Scheduler) (t : List (List Char)) : Scheduler :=
  { s with Next := setNextTimeGo s.now.Hour s.now.Minute s.Next t }

/-- `DailyAt(t...)`. -/
def Scheduler.DailyAt (s : Scheduler) (t : List (List Char)) : Scheduler :=
  let s1 := s.initNextTick
  let s2 := { s1 with Next := { s1.Next with Hour := 0, Minute := 0, Omit := true } }
  s2.setNextTime t

/-- `At(t...)`: alias of `DailyAt`. -/
def Scheduler.At (s : Scheduler) (t : List (List Char)) : Scheduler :=
  s.DailyAt t

/-- `WeeklyOn(d, t)` (current revision: compares `s.now.Weekday()` to the
requested `time.Weekday`). -/
def Scheduler.WeeklyOn (s : Scheduler) (d : Int) (t : List Char) : Scheduler :=
  let s1 := { s with Next := { Year := s.now.Year, Month := s.now.Month, Day := 0,
                               Hour := 0, Minute := 0, Omit := true } }
  if s.now.Weekday = d then
    ({ s1 with Next := { s1.Next with Day := s.now.Day } }).setNextTime [t]
  else s1

/-- `YearlyOn(m, d, t)`. -/
def Scheduler.YearlyOn (s : Scheduler) (m d : Int) (t : List Char) : Scheduler :=
  let s1 := { s with Next := { Year := s.now.Year, Month := 0, Day := 0,
                               Hour := 0, Minute := 0, Omit := true } }
  let month := s.now.Month
  let day := s.now.Day
  let s2 :=
    if month = m ∧ day = d then
      { s1 with Next := { s1.Next with Month := month, Day := d } }
    else s1
  if t ≠ [] then s2.setNextTime [t] else s2

/-- `LastDayOfMonth(t)`: target the last day of the current month
(`carbon.EndOfMonth().Day()`), omit by default; match the time only when `t`
is non-empty. -/
def Scheduler.LastDayOfMonth (s : Scheduler) (t : List Char) : Scheduler :=
  let s1 := { s with Next := { Year := s.now.Year, Month := s.now.Month,
                               Day := daysInMonth s.now.Year s.now.Month,
                               Hour := 0, Minute := 0, Omit := true } }
  if t ≠ [] then s1.setNextTime [t] else s1

/-- The exact-match condition of `setNextTime` for one candidate string: `t`
splits on `':'` into exactly two numeric parts whose values equal the given
hour and minute. -/
def timeStrMatches (t : List Char) (h m : Int) : Bool :=
  match gsplit ':' t with
  | [hs, ms] =>
    match atoi hs with
    | some hour =>
      match atoi ms with
      | some minute => decide (h = hour ∧ m = minute)
      | none => false
    | none => false
  | _ => false

/-- A time-of-day string is malformed when it does not split on `':'` into
exactly two parts or a part is not numeric. -/
def malformedTime (v : List Char) : Bool :=
  match gsplit ':' v with
  | [hs, ms] => (atoi hs).isNone || (atoi ms).isNone
  | _ => true

/-- The string `"0:00"`. -/
def tMidnight : List Char := ['0', ':', '0', '0']

/-- The malformed time string `"a:b"`. -/
def tMalformed : List Char := ['a', ':', 'b']

/-- The string `"00:00"`. -/
def win0000 : List Char := ['0', '0', ':', '0', '0']

/-- The string `"02:59"`. -/
def win0259 : List Char := ['0', '2', ':', '5', '9']

/-- A scheduler at 1970-01-01 00:00 UTC whose target matches that instant
exactly, so `Call` launches. -/
def c3MatchingScheduler : Scheduler :=
  { NewScheduler 0 0 with
    Next := { Year := 1970, Month := 1, Day := 1, Hour := 0, Minute := 0, Omit := false } }

/-- A scheduler configured for UTC (offset 0) whose `now` has been moved to a
UTC+8 location by a `Timezone` call: the instant 1970-01-01 08:00 UTC,
displayed as 16:00 local. -/
def c4Displaced : Scheduler :=
  { location := 0, now := { abs := 480, off := 480 },
    Next := { Year := 0, Month := 0, Day := 0, Hour := 0, Minute := 0, Omit := false },
    limit := { DaysOfWeek := [], StartTime := [], EndTime := [], IsBetween := false, When := none },
    count := 0, wg := 0, logs := [] }

/-- A scheduler at 1970-01-01 01:30 UTC (a Thursday, minute-of-day 90) with an
inclusive window 00:00–02:59 and a weekday filter allowing only Sunday. -/
def c2InsideBlockedByWeekday : Scheduler :=
  { NewScheduler 90 0 with
    limit := { DaysOfWeek := [0], StartTime := win0000, EndTime := win0259,
               IsBetween := true, When := none } }

/-- A scheduler at 1970-01-01 00:00 UTC (minute-of-day 0, the window start)
with an exclusive window 00:00–02:59 and a `When` predicate returning false. -/
def c2BoundaryBlockedByWhen : Scheduler :=
  { NewScheduler 0 0 with
    limit := { DaysOfWeek := [], StartTime := win0000, EndTime := win0259,
               IsBetween := false, When := some false } }

/-- A scheduler at the given minute of 1970-01-01 UTC with only the exclusive
window 00:00–02:59 configured. -/
def c2ExclusiveWindow (absMin : Int) : Scheduler :=
  { NewScheduler absMin 0 with
    limit := { DaysOfWeek := [], StartTime := win0000, EndTime := win0259,
               IsBetween := false, When := none } }

/-- Resolving one candidate time string: `setNextTime` on a one-element list
sets the target hour/minute and clears omit exactly when the string matches
the current hour/minute, and otherwise leaves the target untouched. -/
theorem setNextTimeGo_single (ch cm : Int) (next : NextTick) (t : List Char) :
    setNextTimeGo ch cm next [t] =
      if timeStrMatches t ch cm then { next with Hour := ch, Minute := cm, Omit := false }
      else next := by
  unfold setNextTimeGo timeStrMatches
  rcases hg : gsplit ':' t with _ | ⟨a, _ | ⟨b, _ | ⟨c, l⟩⟩⟩
  · rfl
  · rfl
  · cases ha : atoi a with
    | none => simp [ha, setNextTimeGo]
    | some hv =>
      cases hb : atoi b with
      | none => simp [ha, hb, setNextTimeGo]
      | some mv =>
        simp only [ha, hb]
        by_cases hc : ch = hv ∧ cm = mv
        · simp [hc]
        · simp [hc, setNextTimeGo]
  · rfl

/-- The scan of `setNextTime` leaves the target untouched when every candidate
string is malformed. -/
theorem setNextTimeGo_malformed (ch cm : Int) (next : NextTick) (ts : List (List Char))
    (h : ∀ v ∈ ts, malformedTime v = true) :
    setNextTimeGo ch cm next ts = next := by
  induction ts with
  | nil => rfl
  | cons v rest ih =>
    have hv := h v (by simp)
    have hr : ∀ w ∈ rest, malformedTime w = true := fun w hw => h w (by simp [hw])
    unfold setNextTimeGo
    unfold malformedTime at hv
    rcases hg : gsplit ':' v with _ | ⟨a, _ | ⟨b, _ | ⟨c, l⟩⟩⟩ <;> simp only [hg] at hv ⊢
    · exact ih hr
    · exact ih hr
    · cases ha : atoi a with
      | none => simp only [ha]; exact ih hr
      | some hv2 =>
        cases hb : atoi b with
        | none => simp only [ha, hb]; exact ih hr
        | some mv => simp [ha, hb] at hv
    · exact ih hr

/-- C1: every minute-interval frequency method (divisors 2, 3, 4, 5, 10, 15,
30) resolves the target to the baseline — year, month, day, hour from now,
minute 0, omit false — and then sets the minute to now's minute exactly when
now's minute is divisible by the divisor, leaving it 0 otherwise; omit is
never set by these methods. -/
theorem minuteIntervals_set_minute_only_on_boundary (s : Scheduler) :
    (s.EveryTwoMinutes).Next =
      { Year := s.now.Year, Month := s.now.Month, Day := s.now.Day, Hour := s.now.Hour,
        Minute := if s.now.Minute % 2 = 0 then s.now.Minute else 0, Omit := false } ∧
    (s.EveryThreeMinutes).Next =
      { Year := s.now.Year, Month := s.now.Month, Day := s.now.Day, Hour := s.now.Hour,
        Minute := if s.now.Minute % 3 = 0 then s.now.Minute else 0, Omit := false } ∧
    (s.EveryFourMinutes).Next =
      { Year := s.now.Year, Month := s.now.Month, Day := s.now.Day, Hour := s.now.Hour,
        Minute := if s.now.Minute % 4 = 0 then s.now.Minute else 0, Omit := false } ∧
    (s.EveryFiveMinutes).Next =
      { Year := s.now.Year, Month := s.now.Month, Day := s.now.Day, Hour := s.now.Hour,
        Minute := if s.now.Minute % 5 = 0 then s.now.Minute else 0, Omit := false } ∧
    (s.EveryTenMinutes).Next =
      { Year := s.now.Year, Month := s.now.Month, Day := s.now.Day, Hour := s.now.Hour,
        Minute := if s.now.Minute % 10 = 0 then s.now.Minute else 0, Omit := false } ∧
    (s.EveryFifteenMinutes).Next =
      { Year := s.now.Year, Month := s.now.Month, Day := s.now.Day, Hour := s.now.Hour,
        Minute := if s.now.Minute % 15 = 0 then s.now.Minute else 0, Omit := false } ∧
    (s.EveryThirtyMinutes).Next =
      { Year := s.now.Year, Month := s.now.Month, Day := s.now.Day, Hour := s.now.Hour,
        Minute := if s.now.Minute % 30 = 0 then s.now.Minute else 0, Omit := false } := by
  refine ⟨?_, ?_, ?_, ?_, ?_, ?_, ?_⟩ <;>
    simp only [Scheduler.EveryTwoMinutes, Scheduler.EveryThreeMinutes,
      Scheduler.EveryFourMinutes, Scheduler.EveryFiveMinutes, Scheduler.EveryTenMinutes,
      Scheduler.EveryFifteenMinutes, Scheduler.EveryThirtyMinutes, Scheduler.initNextTick] <;>
    split <;> simp_all

/-- C2 counterexample: the time-of-day window is not the only source of
rejection in checkLimit, so "rejects exactly when the offset is strictly
outside/inside the window" fails as stated for arbitrary limits: an inclusive
window 00:00–02:59 with now at minute-of-day 90 (strictly inside) is rejected
because the weekday filter (Sunday only, now a Thursday) fails first; and an
exclusive window with now at minute-of-day 0 (equal to the start boundary,
which the claim says always passes) is rejected because the When predicate
returns false. -/
theorem checkLimit_rejects_despite_window_pass :
    (c2InsideBlockedByWeekday.limit.IsBetween = true ∧
     timeToMinutes c2InsideBlockedByWeekday.limit.StartTime = (0, 0) ∧
     timeToMinutes c2InsideBlockedByWeekday.limit.EndTime = (2, 59) ∧
     c2InsideBlockedByWeekday.now.Hour * 60 + c2InsideBlockedByWeekday.now.Minute = 90 ∧
     c2InsideBlockedByWeekday.checkLimit = false) ∧
    (c2BoundaryBlockedByWhen.limit.IsBetween = false ∧
     timeToMinutes c2BoundaryBlockedByWhen.limit.StartTime = (0, 0) ∧
     c2BoundaryBlockedByWhen.now.Hour * 60 + c2BoundaryBlockedByWhen.now.Minute = 0 ∧
     c2BoundaryBlockedByWhen.checkLimit = false) := by
  decide

/-- C2 amended: for a Limit with empty weekday filter, no When predicate, and
non-empty start/end strings, checkLimit rejects exactly when — after parsing
the strings to minute-of-day offsets and swapping when start exceeds end (min
and max below) — the current minute-of-day is strictly outside the closed
window in inclusive mode, or strictly inside the open window in exclusive
mode; offsets equal to either bound always pass in exclusive mode. -/
theorem checkLimit_window_rejection_characterized (s : Scheduler)
    (hdays : s.limit.DaysOfWeek = [])
    (hwhen : s.limit.When = none)
    (hst : s.limit.StartTime ≠ [])
    (het : s.limit.EndTime ≠ []) :
    s.checkLimit = false ↔
      ((s.limit.IsBetween = true ∧
         (s.now.Hour * 60 + s.now.Minute <
            min ((timeToMinutes s.limit.StartTime).1 * 60 + (timeToMinutes s.limit.StartTime).2)
                ((timeToMinutes s.limit.EndTime).1 * 60 + (timeToMinutes s.limit.EndTime).2) ∨
          s.now.Hour * 60 + s.now.Minute >
            max ((timeToMinutes s.limit.StartTime).1 * 60 + (timeToMinutes s.limit.StartTime).2)
                ((timeToMinutes s.limit.EndTime).1 * 60 + (timeToMinutes s.limit.EndTime).2))) ∨
       (s.limit.IsBetween = false ∧
         min ((timeToMinutes s.limit.StartTime).1 * 60 + (timeToMinutes s.limit.StartTime).2)
             ((timeToMinutes s.limit.EndTime).1 * 60 + (timeToMinutes s.limit.EndTime).2)
           < s.now.Hour * 60 + s.now.Minute ∧
         s.now.Hour * 60 + s.now.Minute <
           max ((timeToMinutes s.limit.StartTime).1 * 60 + (timeToMinutes s.limit.StartTime).2)
               ((timeToMinutes s.limit.EndTime).1 * 60 + (timeToMinutes s.limit.EndTime).2))) := by
  unfold Scheduler.checkLimit
  simp only [hdays, hwhen, hst, het]
  cases hb : s.limit.IsBetween <;> simp [hb] <;> split_ifs <;>
    constructor <;> intro hx <;> simp_all <;> omega

/-- C2 witness: the amended characterization applied to the exclusive window
00:00–02:59 of the spec's example — minute-of-day 90 (strictly inside) is
rejected, the boundary offsets 0 and 179 pass. -/
theorem checkLimit_window_rejection_instances :
    (c2ExclusiveWindow 90).checkLimit = false ∧
    (c2ExclusiveWindow 0).checkLimit = true ∧
    (c2ExclusiveWindow 179).checkLimit = true := by
  refine ⟨?_, ?_, ?_⟩
  · exact (checkLimit_window_rejection_characterized (c2ExclusiveWindow 90)
      rfl rfl (by decide) (by decide)).mpr (by decide)
  · have h := checkLimit_window_rejection_characterized (c2ExclusiveWindow 0)
      rfl rfl (by decide) (by decide)
    cases hb : (c2ExclusiveWindow 0).checkLimit
    · exact absurd (h.mp hb) (by decide)
    · rfl
  · have h := checkLimit_window_rejection_characterized (c2ExclusiveWindow 179)
      rfl rfl (by decide) (by decide)
    cases hb : (c2ExclusiveWindow 179).checkLimit
    · exact absurd (h.mp hb) (by decide)
    · rfl

/-- C3: after a successful launch, a task body that panics is handled entirely
at the goroutine boundary: no panic escapes (for the faulted task or a normal
one), the in-flight counter and the wait-group return to their pre-launch
values exactly as for a normal completion, the panic payload is reported
through the logger, and when this was the only in-flight task the drain
operation's wait condition holds again. -/
theorem task_panic_recovered_and_drained (s : Scheduler) (r : List Char)
    (h : (s.Call).2 = true) :
    (((s.Call).1.completeTask (RunOutcome.panicked r)).2 = none) ∧
    (((s.Call).1.completeTask (RunOutcome.panicked r)).1.count = s.count) ∧
    (((s.Call).1.completeTask (RunOutcome.panicked r)).1.wg = s.wg) ∧
    (((s.Call).1.completeTask (RunOutcome.panicked r)).1.logs = (s.Call).1.logs ++ [r]) ∧
    (((s.Call).1.completeTask RunOutcome.ok).2 = none) ∧
    (((s.Call).1.completeTask (RunOutcome.panicked r)).1.count =
       ((s.Call).1.completeTask RunOutcome.ok).1.count) ∧
    (((s.Call).1.completeTask (RunOutcome.panicked r)).1.wg =
       ((s.Call).1.completeTask RunOutcome.ok).1.wg) ∧
    (s.wg = 0 → ((s.Call).1.completeTask (RunOutcome.panicked r)).1.startUnblocked = true) := by
  have hcall : (s.Call).1 =
      ({ s with count := s.count + 1, wg := s.wg + 1 }).Timezone s.location := by
    by_cases hm : s.isTimeMatched = true
    · by_cases hl : s.checkLimit = true
      · simp [Scheduler.Call, hm, hl]
      · simp at hl
        simp [Scheduler.Call, hm, hl] at h
    · simp at hm
      simp [Scheduler.Call, hm] at h
  rw [hcall]
  refine ⟨rfl, ?_, ?_, rfl, rfl, rfl, rfl, ?_⟩ <;>
    simp [Scheduler.completeTask, Scheduler.Timezone, Scheduler.startUnblocked]

/-- C3 witness: a scheduler whose target matches 1970-01-01 00:00 launches,
and completing the spawned task with a panic propagates nothing and returns
the counter to 0. -/
theorem task_panic_recovered_and_drained_witness :
    ((c3MatchingScheduler.Call).2 = true) ∧
    (((c3MatchingScheduler.Call).1.completeTask
        (RunOutcome.panicked ['b', 'o', 'o', 'm'])).2 = none) ∧
    (((c3MatchingScheduler.Call).1.completeTask
        (RunOutcome.panicked ['b', 'o', 'o', 'm'])).1.count = 0) ∧
    (((c3MatchingScheduler.Call).1.completeTask
        (RunOutcome.panicked ['b', 'o', 'o', 'm'])).1.startUnblocked = true) := by
  have h := task_panic_recovered_and_drained c3MatchingScheduler
    ['b', 'o', 'o', 'm'] (by decide)
  refine ⟨by decide, h.1, ?_, ?_⟩
  · rw [h.2.1]
    decide
  · exact h.2.2.2.2.2.2.2 rfl

/-- C4 counterexample: a failed Call is not free of side effects on the clock
context: with the scheduler's now displayed in a UTC+8 location while the
configured location is UTC, the match fails and no task launches, yet the
deferred timezone rollback changes now (its displayed hour moves from 16 to
8). -/
theorem call_on_failure_changes_clock_context :
    c4Displaced.isTimeMatched = false ∧
    (c4Displaced.Call).2 = false ∧
    (c4Displaced.Call).1.now ≠ c4Displaced.now ∧
    c4Displaced.now.Hour = 16 ∧
    (c4Displaced.Call).1.now.Hour = 8 := by
  decide

/-- C4 amended: when the match evaluation or the constraint check fails, Call
launches nothing and leaves the target, the constraint set, and the in-flight
counter unchanged; its sole side effect is the deferred timezone rollback
(now is re-displayed in the configured location).  When now is already
displayed in the configured location the state is entirely unchanged, so
evaluating the same fixed now against the same chain twice yields identical
results. -/
theorem call_on_failure_only_rolls_back_timezone (s : Scheduler)
    (h : s.isTimeMatched = false ∨ s.checkLimit = false) :
    ((s.Call).2 = false) ∧
    ((s.Call).1 = { s with now := s.now.In s.location }) ∧
    ((s.Call).1.Next = s.Next ∧ (s.Call).1.limit = s.limit ∧ (s.Call).1.count = s.count) ∧
    (s.now.off = s.location → (s.Call).1 = s ∧ (s.Call).1.Call = s.Call) := by
  have hcall : s.Call = ({ s with now := s.now.In s.location }, false) := by
    rcases h with h | h
    · simp [Scheduler.Call, Scheduler.Timezone, h]
    · by_cases hm : s.isTimeMatched = true
      · simp [Scheduler.Call, Scheduler.Timezone, hm, h]
      · simp at hm
        simp [Scheduler.Call, Scheduler.Timezone, hm]
  have heta : s.now.off = s.location → { s with now := s.now.In s.location } = s := by
    intro hoff
    have hnow : s.now.In s.location = s.now := by
      cases hn : s.now
      simp [GoTime.In, ← hoff, hn]
    rw [hnow]
  refine ⟨by rw [hcall], by rw [hcall], by rw [hcall]; exact ⟨rfl, rfl, rfl⟩, ?_⟩
  intro hoff
  have h1 : (s.Call).1 = s := by rw [hcall]; exact heta hoff
  refine ⟨h1, ?_⟩
  rw [h1]

/-- C4 witness: a fresh scheduler (zero target, so the match fails) whose now
is already in the configured location is left entirely unchanged by Call. -/
theorem call_on_failure_only_rolls_back_timezone_witness :
    ((NewScheduler 0 0).Call).2 = false ∧ ((NewScheduler 0 0).Call).1 = NewScheduler 0 0 := by
  have h := call_on_failure_only_rolls_back_timezone (NewScheduler 0 0) (Or.inl (by decide))
  exact ⟨h.1, (h.2.2.2 rfl).1⟩

/-- C5 counterexample: a malformed time string is not coerced to hour 0,
minute 0 by DailyAt: at now = 00:00, DailyAt with only the malformed string
"a:b" leaves omit set, whereas the claim says omit is cleared with the target
resolved to 00:00. -/
theorem dailyAt_malformed_at_midnight_stays_omitted :
    (NewScheduler 0 0).now.Hour = 0 ∧
    (NewScheduler 0 0).now.Minute = 0 ∧
    ((NewScheduler 0 0).DailyAt [tMalformed]).Next.Omit = true ∧
    (((NewScheduler 0 0).DailyAt [tMalformed]).Call).2 = false := by
  decide

/-- C5 amended: DailyAt (and its alias At) skips malformed time strings — a
string without exactly one colon or with a non-numeric part can never match,
and no error surfaces; when every argument is malformed the target keeps hour
0, minute 0 from the DailyAt preamble with omit still set.  (The hour=0,
minute=0 coercion of malformed strings belongs to timeToMinutes, the parser
used by the constraint window, not to DailyAt.) -/
theorem dailyAt_skips_malformed_times (s : Scheduler) (ts : List (List Char))
    (h : ∀ v ∈ ts, malformedTime v = true) :
    (s.DailyAt ts).Next =
      { Year := s.now.Year, Month := s.now.Month, Day := s.now.Day,
        Hour := 0, Minute := 0, Omit := true } ∧
    (s.At ts).Next =
      { Year := s.now.Year, Month := s.now.Month, Day := s.now.Day,
        Hour := 0, Minute := 0, Omit := true } ∧
    timeToMinutes tMalformed = (0, 0) := by
  refine ⟨?_, ?_, by decide⟩ <;>
    simp [Scheduler.DailyAt, Scheduler.At, Scheduler.setNextTime, Scheduler.initNextTick,
      setNextTimeGo_malformed _ _ _ _ h]

/-- C5 witness: the amended statement applied at now = 1970-01-01 00:00 with
the single malformed argument "a:b". -/
theorem dailyAt_skips_malformed_times_witness :
    ((NewScheduler 0 0).DailyAt [tMalformed]).Next =
      { Year := 1970, Month := 1, Day := 1, Hour := 0, Minute := 0, Omit := true } := by
  have h := dailyAt_skips_malformed_times (NewScheduler 0 0) [tMalformed] (by decide)
  rw [h.1]
  decide

/-- C6: EveryOddHour sets omit by default and clears it — while keeping the
target hour equal to now's hour — exactly when now's hour lies in [1, 23] and
is odd; in particular at 00:00 omit remains set and at 01:00 omit is cleared
with hour 1. -/
theorem everyOddHour_fires_only_on_odd_hours (s : Scheduler) :
    ((s.EveryOddHour).Next.Omit = false ↔
      (1 ≤ s.now.Hour ∧ s.now.Hour ≤ 23 ∧ s.now.Hour % 2 = 1)) ∧
    (s.EveryOddHour).Next.Hour = s.now.Hour ∧
    (s.EveryOddHour).Next.Year = s.now.Year ∧
    (s.EveryOddHour).Next.Month = s.now.Month ∧
    (s.EveryOddHour).Next.Day = s.now.Day ∧
    (s.EveryOddHour).Next.Minute = 0 ∧
    ((NewScheduler 0 0).EveryOddHour).Next.Omit = true ∧
    ((NewScheduler 60 0).EveryOddHour).Next.Omit = false ∧
    ((NewScheduler 60 0).EveryOddHour).Next.Hour = 1 := by
  refine ⟨?_, ?_, ?_, ?_, ?_, ?_, by decide, by decide, by decide⟩ <;>
    simp only [Scheduler.EveryOddHour, Scheduler.initNextTick] <;>
    split <;> simp_all

/-- C7: WeeklyOn sets omit by default and clears it exactly when now's weekday
equals the requested designator and the time string matches now's hour and
minute exactly; in that case the target day is now's day-of-month and the
target hour/minute are the matched time (year and month always come from
now). -/
theorem weeklyOn_matches_weekday_and_time (s : Scheduler) (d : Int) (t : List Char) :
    ((s.WeeklyOn d t).Next.Omit = false ↔
      (s.now.Weekday = d ∧ timeStrMatches t s.now.Hour s.now.Minute = true)) ∧
    (s.now.Weekday = d → timeStrMatches t s.now.Hour s.now.Minute = true →
      ((s.WeeklyOn d t).Next.Day = s.now.Day ∧
       (s.WeeklyOn d t).Next.Hour = s.now.Hour ∧
       (s.WeeklyOn d t).Next.Minute = s.now.Minute)) ∧
    (s.WeeklyOn d t).Next.Year = s.now.Year ∧
    (s.WeeklyOn d t).Next.Month = s.now.Month := by
  unfold Scheduler.WeeklyOn
  by_cases hw : s.now.Weekday = d
  · simp only [hw, if_pos, Scheduler.setNextTime, setNextTimeGo_single]
    by_cases ht : timeStrMatches t s.now.Hour s.now.Minute = true
    · simp [ht]
    · simp [ht]
  · simp [hw]

/-- C7 witness: at 1970-01-01 00:00 (a Thursday, weekday 4) WeeklyOn for
weekday 4 at "0:00" clears omit and targets day 1 at 00:00. -/
theorem weeklyOn_matches_weekday_and_time_witness :
    ((NewScheduler 0 0).WeeklyOn 4 tMidnight).Next.Omit = false ∧
    ((NewScheduler 0 0).WeeklyOn 4 tMidnight).Next.Day = 1 := by
  have h := weeklyOn_matches_weekday_and_time (NewScheduler 0 0) 4 tMidnight
  refine ⟨h.1.mpr (by decide), ?_⟩
  have h2 := h.2.1 (by decide) (by decide)
  rw [h2.1]
  decide

/-- C8 counterexample: YearlyOn runs the time-matching step whenever the time
string is non-empty, regardless of the month/day designator, so on
1970-01-02 00:00 (month 1, day 2) the call YearlyOn(3, 4, "0:00") leaves omit
false even though the month differs from the designator — contradicting the
claim that omit stays true on any instant whose month or day differs. -/
theorem yearlyOn_clears_omit_on_mismatched_date :
    (NewScheduler 1440 0).now.Month = 1 ∧
    (NewScheduler 1440 0).now.Day = 2 ∧
    ((NewScheduler 1440 0).YearlyOn 3 4 tMidnight).Next.Omit = false := by
  decide

/-- C8 amended: YearlyOn sets omit by default, and omit is false after the
call exactly when the time string is non-empty and matches now's hour and
minute — independently of the (month, day) designator.  The designator
controls only the Month/Day fields: they are set to (m, d) when now matches
and stay 0 otherwise, so on any real instant (month at least 1) a mismatched
designator still makes the schedule fail to match, even when omit is false. -/
theorem yearlyOn_omit_tracks_time_match_only (s : Scheduler) (m d : Int) (t : List Char) :
    ((s.YearlyOn m d t).Next.Omit = false ↔
      (t ≠ [] ∧ timeStrMatches t s.now.Hour s.now.Minute = true)) ∧
    ((s.now.Month = m ∧ s.now.Day = d) →
      ((s.YearlyOn m d t).Next.Month = m ∧ (s.YearlyOn m d t).Next.Day = d)) ∧
    (¬(s.now.Month = m ∧ s.now.Day = d) →
      ((s.YearlyOn m d t).Next.Month = 0 ∧ (s.YearlyOn m d t).Next.Day = 0)) ∧
    (1 ≤ s.now.Month → ¬(s.now.Month = m ∧ s.now.Day = d) →
      (s.YearlyOn m d t).isTimeMatched = false) := by
  unfold Scheduler.YearlyOn
  by_cases hmd : s.now.Month = m ∧ s.now.Day = d
  · by_cases ht : t ≠ []
    · by_cases hts : timeStrMatches t s.now.Hour s.now.Minute = true
      · simp [Scheduler.setNextTime, setNextTimeGo_single, hmd, ht, hts,
          Scheduler.isTimeMatched]
      · simp [Scheduler.setNextTime, setNextTimeGo_single, hmd, ht, hts,
          Scheduler.isTimeMatched]
    · simp at ht
      simp [ht, hmd, Scheduler.isTimeMatched]
  · by_cases ht : t ≠ []
    · by_cases hts : timeStrMatches t s.now.Hour s.now.Minute = true
      · simp [Scheduler.setNextTime, setNextTimeGo_single, hmd, ht, hts,
          Scheduler.isTimeMatched]
        omega
      · simp [Scheduler.setNextTime, setNextTimeGo_single, hmd, ht, hts,
          Scheduler.isTimeMatched]
    · simp at ht
      simp [ht, hmd, Scheduler.isTimeMatched]

/-- C8 witness: on 1970-01-02 00:00 the matching designator (1, 2) with time
"0:00" clears omit and sets month 1, day 2. -/
theorem yearlyOn_omit_tracks_time_match_only_witness :
    ((NewScheduler 1440 0).YearlyOn 1 2 tMidnight).Next.Omit = false ∧
    ((NewScheduler 1440 0).YearlyOn 1 2 tMidnight).Next.Month = 1 ∧
    ((NewScheduler 1440 0).YearlyOn 1 2 tMidnight).Next.Day = 2 := by
  have h := yearlyOn_omit_tracks_time_match_only (NewScheduler 1440 0) 1 2 tMidnight
  refine ⟨h.1.mpr ⟨by decide, by decide⟩, ?_, ?_⟩
  · exact (h.2.1 ⟨by decide, by decide⟩).1
  · exact (h.2.1 ⟨by decide, by decide⟩).2

/-- C9: a freshly created scheduler on which no frequency method has been
called has the all-zero target with omit false, its match evaluation is false
on any real calendar instant (month and day at least 1), and Call launches
nothing and leaves the in-flight counter unchanged. -/
theorem fresh_scheduler_never_fires (a l : Int)
    (hm : 1 ≤ (NewScheduler a l).now.Month)
    (hd : 1 ≤ (NewScheduler a l).now.Day) :
    (NewScheduler a l).Next =
      { Year := 0, Month := 0, Day := 0, Hour := 0, Minute := 0, Omit := false } ∧
    (NewScheduler a l).isTimeMatched = false ∧
    ((NewScheduler a l).Call).2 = false ∧
    ((NewScheduler a l).Call).1.count = (NewScheduler a l).count := by
  have hmatch : (NewScheduler a l).isTimeMatched = false := by
    simp only [NewScheduler] at hm ⊢
    simp only [Scheduler.isTimeMatched]
    split
    · rfl
    · split
      · omega
      · rfl
  refine ⟨rfl, hmatch, ?_, ?_⟩ <;>
    simp [Scheduler.Call, Scheduler.Timezone, hmatch]

/-- C9 witness: the fresh scheduler at 1970-01-01 00:00 UTC (month 1, day 1)
does not match and does not launch. -/
theorem fresh_scheduler_never_fires_witness :
    (NewScheduler 0 0).isTimeMatched = false ∧ ((NewScheduler 0 0).Call).2 = false := by
  have h := fresh_scheduler_never_fires 0 0 (by decide) (by decide)
  exact ⟨h.2.1, h.2.2.1⟩

/-- C10: LastDayOfMonth with the empty time string skips the time-matching
step entirely, so omit stays set unconditionally, the match evaluation is
false, and Call never launches a task nor changes the in-flight counter. -/
theorem lastDayOfMonth_empty_time_never_fires (s : Scheduler) :
    ((s.LastDayOfMonth []).Next.Omit = true) ∧
    ((s.LastDayOfMonth []).isTimeMatched = false) ∧
    (((s.LastDayOfMonth []).Call).2 = false) ∧
    (((s.LastDayOfMonth []).Call).1.count = (s.LastDayOfMonth []).count) := by
  have homit : (s.LastDayOfMonth []).Next.Omit = true := by
    simp [Scheduler.LastDayOfMonth]
  have hmatch : (s.LastDayOfMonth []).isTimeMatched = false := by
    simp [Scheduler.isTimeMatched, homit]
  refine ⟨homit, hmatch, ?_, ?_⟩ <;>
    simp [Scheduler.Call, Scheduler.Timezone, hmatch]
